import Mathlib

/-!
Verification of the puzzle-generation core in src/app.py.

The Python code is shallowly embedded over exact rational arithmetic:
Python float arithmetic is modelled by ℚ, Python int() truncation toward
zero by int_trunc, and int(math.sqrt x) for x ≥ 0 by floorSqrt (justified
by floorSqrt_eq_floor_real_sqrt below).  Fallible code paths (a float
division by zero, math.sqrt of a negative number) are modelled by Option,
with none standing for the raised exception.
-/

/-- Python int() applied to a rational value: truncation toward zero. -/
def int_trunc (q : ℚ) : ℤ := if 0 ≤ q then ⌊q⌋ else -⌊-q⌋

/-- Value of int(math.sqrt q) for q ≥ 0: the floor of the real square root,
computed through Nat.sqrt via the identity ⌊√q⌋ = Nat.sqrt ⌊q⌋ for 0 ≤ q. -/
def floorSqrt (q : ℚ) : ℕ := Nat.sqrt ⌊q⌋.toNat

/-- Justification of the floorSqrt encoding: for 0 ≤ q it agrees with the
floor of the exact real square root, which is what int(math.sqrt q)
computes (up to float rounding, which the whole embedding abstracts). -/
lemma floorSqrt_eq_floor_real_sqrt (q : ℚ) (hq : 0 ≤ q) :
    (floorSqrt q : ℤ) = ⌊Real.sqrt (q : ℝ)⌋ := by
  unfold floorSqrt
  have hfl : (0 : ℤ) ≤ ⌊q⌋ := Int.floor_nonneg.mpr hq
  set n : ℕ := ⌊q⌋.toNat with hn
  have hfloor : ⌊q⌋ = (n : ℤ) := (Int.toNat_of_nonneg hfl).symm
  have h1 : ((n : ℝ)) ≤ (q : ℝ) := by
    have h := Int.floor_le q
    rw [hfloor] at h
    exact_mod_cast h
  have h2 : (q : ℝ) < (n : ℝ) + 1 := by
    have h := Int.lt_floor_add_one q
    rw [hfloor] at h
    exact_mod_cast h
  have hle : (Nat.sqrt n : ℝ) ≤ Real.sqrt (q : ℝ) :=
    le_trans Real.nat_sqrt_le_real_sqrt (Real.sqrt_le_sqrt h1)
  have hsucc : (n : ℝ) + 1 ≤ ((Nat.sqrt n : ℝ) + 1) ^ 2 := by
    have h := Nat.lt_succ_sqrt n
    have h' : n + 1 ≤ (Nat.sqrt n + 1) * (Nat.sqrt n + 1) := h
    calc (n : ℝ) + 1 ≤ ((Nat.sqrt n + 1) * (Nat.sqrt n + 1) : ℕ) := by exact_mod_cast h'
    _ = ((Nat.sqrt n : ℝ) + 1) ^ 2 := by push_cast; ring
  have hlt : Real.sqrt (q : ℝ) < (Nat.sqrt n : ℝ) + 1 := by
    have hpos : (0 : ℝ) < (Nat.sqrt n : ℝ) + 1 := by positivity
    refine (Real.sqrt_lt' hpos).mpr ?_
    exact lt_of_lt_of_le h2 hsucc
  symm
  rw [Int.floor_eq_iff]
  constructor
  · exact_mod_cast hle
  · exact_mod_cast hlt

/-- Embedding of calculate_grid (src/app.py lines 18-25).
aspect = width / height; rows = int(sqrt(num_pieces / aspect));
cols = int(num_pieces / max(rows, 1)); each clamped from 0 to 1.
Returns none where Python raises: a division by zero (height = 0 or
aspect = 0) or math.sqrt of a negative argument. -/
def calculate_grid (width height : ℚ) (num_pieces : ℤ) : Option (ℤ × ℤ) :=
  if height = 0 then none else
  let aspect : ℚ := width / height
  if aspect = 0 then none else
  let q : ℚ := (num_pieces : ℚ) / aspect
  if q < 0 then none else
  let rows0 : ℤ := (floorSqrt q : ℤ)
  let cols0 : ℤ := int_trunc ((num_pieces : ℚ) / ((max rows0 1 : ℤ) : ℚ))
  let rows : ℤ := if rows0 = 0 then 1 else rows0
  let cols : ℤ := if cols0 = 0 then 1 else cols0
  some (rows, cols)

/-- Embedding of the piece-count parse in the generate route
(src/app.py lines 284-288): pieces = int(form value, default 25) inside
try/except with fallback 25.  The argument is the outcome of the int()
parse of the raw field: some k when the field parses to the integer k,
none when the field is absent or int() raises. -/
def parse_pieces (raw : Option ℤ) : ℤ := raw.getD 25

/-- Helper: int_trunc of a nonnegative rational is nonnegative. -/
lemma int_trunc_nonneg (q : ℚ) (h : 0 ≤ q) : 0 ≤ int_trunc q := by
  unfold int_trunc
  rw [if_pos h]
  exact Int.floor_nonneg.mpr h

/-- Helper: on positive dimensions and nonnegative count, calculate_grid
succeeds and both results are at least 1. -/
lemma calculate_grid_succeeds (W H : ℚ) (N : ℤ) (hW : 0 < W) (hH : 0 < H)
    (hN : 0 ≤ N) :
    ∃ r c : ℤ, calculate_grid W H N = some (r, c) ∧ 1 ≤ r ∧ 1 ≤ c := by
  have hH0 : H ≠ 0 := ne_of_gt hH
  have haspect : 0 < W / H := div_pos hW hH
  have haspect0 : W / H ≠ 0 := ne_of_gt haspect
  have hq : 0 ≤ (N : ℚ) / (W / H) :=
    div_nonneg (by exact_mod_cast hN) (le_of_lt haspect)
  have hnlt : ¬((N : ℚ) / (W / H) < 0) := not_lt.mpr hq
  have hmain : ∃ r c : ℤ, calculate_grid W H N = some (r, c) := by
    simp only [calculate_grid, if_neg hH0, if_neg haspect0, if_neg hnlt]
    exact ⟨_, _, rfl⟩
  obtain ⟨r, c, heq⟩ := hmain
  refine ⟨r, c, heq, ?_, ?_⟩
  all_goals
    simp only [calculate_grid, if_neg hH0, if_neg haspect0, if_neg hnlt,
      Option.some.injEq, Prod.mk.injEq] at heq
    obtain ⟨hr, hc⟩ := heq
  · rw [← hr]
    by_cases h : (floorSqrt ((N : ℚ) / (W / H)) : ℤ) = 0
    · simp [h]
    · have h0 : (0 : ℤ) ≤ (floorSqrt ((N : ℚ) / (W / H)) : ℤ) := Int.natCast_nonneg _
      rw [if_neg h]
      omega
  · rw [← hc]
    have hmax : (1 : ℤ) ≤ max (floorSqrt ((N : ℚ) / (W / H)) : ℤ) 1 := le_max_right _ _
    have hmaxq : (0 : ℚ) < ((max (floorSqrt ((N : ℚ) / (W / H)) : ℤ) 1 : ℤ) : ℚ) := by
      exact_mod_cast lt_of_lt_of_le one_pos hmax
    have hquot : 0 ≤ (N : ℚ) / ((max (floorSqrt ((N : ℚ) / (W / H)) : ℤ) 1 : ℤ) : ℚ) :=
      div_nonneg (by exact_mod_cast hN) (le_of_lt hmaxq)
    have hcols0 := int_trunc_nonneg _ hquot
    by_cases h : int_trunc ((N : ℚ) / ((max (floorSqrt ((N : ℚ) / (W / H)) : ℤ) 1 : ℤ) : ℚ)) = 0
    · rw [if_pos h]
    · rw [if_neg h]
      omega

/-- Helper: on positive dimensions a negative requested count makes
calculate_grid fail (math.sqrt of a negative argument raises ValueError). -/
lemma calculate_grid_neg (W H : ℚ) (N : ℤ) (hW : 0 < W) (hH : 0 < H)
    (hN : N < 0) :
    calculate_grid W H N = none := by
  have hH0 : H ≠ 0 := ne_of_gt hH
  have haspect : 0 < W / H := div_pos hW hH
  have haspect0 : W / H ≠ 0 := ne_of_gt haspect
  have hq : (N : ℚ) / (W / H) < 0 :=
    div_neg_of_neg_of_pos (by exact_mod_cast hN) haspect
  simp only [calculate_grid, if_neg hH0, if_neg haspect0, if_pos hq]

/-- Helper: on positive dimensions a requested count of zero yields the
clamped 1 by 1 grid. -/
lemma calculate_grid_zero_aux (W H : ℚ) (hW : 0 < W) (hH : 0 < H) :
    calculate_grid W H 0 = some (1, 1) := by
  have hW0 : W ≠ 0 := ne_of_gt hW
  have hH0 : H ≠ 0 := ne_of_gt hH
  have hsq : floorSqrt 0 = 0 := by simp [floorSqrt]
  simp [calculate_grid, hW0, hH0, hsq, int_trunc]

/-- C7: for every piece count N ≥ 1 and positive image dimensions W and H,
calculate_grid returns a grid with rows ≥ 1 and cols ≥ 1. -/
theorem calculate_grid_ge_one (W H : ℚ) (N : ℤ) (hW : 0 < W) (hH : 0 < H)
    (hN : 1 ≤ N) :
    ∃ r c : ℤ, calculate_grid W H N = some (r, c) ∧ 1 ≤ r ∧ 1 ≤ c :=
  calculate_grid_succeeds W H N hW hH (le_trans one_pos.le hN)

/-- Witness for C7 at an 800 by 600 image with 20 requested pieces. -/
theorem calculate_grid_ge_one_witness :
    ∃ r c : ℤ, calculate_grid 800 600 20 = some (r, c) ∧ 1 ≤ r ∧ 1 ≤ c :=
  calculate_grid_ge_one 800 600 20 (by norm_num) (by norm_num) (by norm_num)

/-- C10: for piece count exactly 0 and positive dimensions, calculate_grid
returns (1, 1) without raising: both intermediate values compute to 0 and
are clamped to 1. -/
theorem calculate_grid_zero_pieces (W H : ℚ) (hW : 0 < W) (hH : 0 < H) :
    calculate_grid W H 0 = some (1, 1) :=
  calculate_grid_zero_aux W H hW hH

/-- Witness for C10 at an 800 by 600 image. -/
theorem calculate_grid_zero_pieces_witness :
    calculate_grid 800 600 0 = some (1, 1) :=
  calculate_grid_zero_pieces 800 600 (by norm_num) (by norm_num)

/-- C9 counterexample: at 800 by 600 with 20 requested pieces the code
returns rows = 3, cols = 6 (since int(sqrt(20 / (800/600))) = ⌊√15⌋ = 3 and
int(20 / 3) = 6), so the run produces 18 pieces, not 24, and the grid is
neither 5 by 4 nor 4 by 5. -/
theorem grid_800_600_20_is_3_by_6 :
    calculate_grid 800 600 20 = some (3, 6) ∧ (3 * 6 : ℤ) ≠ 24 := by
  constructor
  · have h15 : ((15 : ℤ).toNat).sqrt = 3 := by
      rw [show (15 : ℤ).toNat = 15 from rfl]; norm_num
    norm_num [calculate_grid, floorSqrt, int_trunc, h15]
  · norm_num

/-- C9 amended: at 800 by 600 with 20 requested pieces, calculate_grid
returns rows = 3 and cols = 6, and the run produces 3 × 6 = 18 pieces. -/
theorem grid_800_600_20_amended :
    calculate_grid 800 600 20 = some (3, 6) ∧ (3 * 6 : ℤ) = 18 := by
  constructor
  · have h15 : ((15 : ℤ).toNat).sqrt = 3 := by
      rw [show (15 : ℤ).toNat = 15 from rfl]; norm_num
    norm_num [calculate_grid, floorSqrt, int_trunc, h15]
  · norm_num

/-- C8 counterexample: the requested piece count -5 parses, is not replaced
by the default 25, and the run then fails (math.sqrt of a negative argument
raises) instead of proceeding with the default. -/
theorem negative_pieces_not_defaulted :
    parse_pieces (some (-5)) = -5 ∧
    parse_pieces (some (-5)) ≠ 25 ∧
    calculate_grid 800 600 (parse_pieces (some (-5))) = none := by
  refine ⟨rfl, by norm_num [parse_pieces], ?_⟩
  exact calculate_grid_neg 800 600 (-5) (by norm_num) (by norm_num) (by norm_num)

/-- C8 amended: only an absent or unparsable piece count is recovered by
substituting the default 25, with which the run proceeds; a parsable
non-positive count is not substituted: zero proceeds with the clamped
1 by 1 grid and a negative count makes the run fail. -/
theorem pieces_default_only_on_parse_failure (W H : ℚ) (hW : 0 < W) (hH : 0 < H) :
    parse_pieces none = 25 ∧
    (∃ r c : ℤ, calculate_grid W H (parse_pieces none) = some (r, c) ∧ 1 ≤ r ∧ 1 ≤ c) ∧
    calculate_grid W H 0 = some (1, 1) ∧
    (∀ k : ℤ, k < 0 → calculate_grid W H k = none) := by
  refine ⟨rfl, ?_, ?_, ?_⟩
  · exact calculate_grid_succeeds W H 25 hW hH (by norm_num)
  · exact calculate_grid_zero_aux W H hW hH
  · intro k hk
    exact calculate_grid_neg W H k hW hH hk

/-- Witness for the amended C8 at an 800 by 600 image. -/
theorem pieces_default_only_on_parse_failure_witness :
    parse_pieces none = 25 ∧
    (∃ r c : ℤ, calculate_grid 800 600 (parse_pieces none) = some (r, c) ∧ 1 ≤ r ∧ 1 ≤ c) ∧
    calculate_grid 800 600 0 = some (1, 1) ∧
    (∀ k : ℤ, k < 0 → calculate_grid 800 600 k = none) :=
  pieces_default_only_on_parse_failure 800 600 (by norm_num) (by norm_num)

/-- Embedding of get_square_tab_points (src/app.py lines 27-53): the four
bump points of a rectangular tab along an edge of the given length, in
local coordinates where the edge runs from (0,0) to (length,0); the
perpendicular offset is positive for a tab and negative for a hole. -/
def get_square_tab_points (length : ℚ) (is_tab : Bool) : List (ℚ × ℚ) :=
  let tab_width : ℚ := length * (3 / 10)
  let tab_height : ℚ := length * (2 / 10)
  let x1 : ℚ := (length - tab_width) / 2
  let x2 : ℚ := x1 + tab_width
  let y_offset : ℚ := if is_tab then tab_height else -tab_height
  [(x1, 0), (x1, y_offset), (x2, y_offset), (x2, 0)]

/-- C4: for every edge length, the profiles generated with is_tab = true
and is_tab = false have the same number of points, and the false profile
is exactly the true profile with each x kept and each perpendicular
offset sign-negated. -/
theorem tab_hole_profiles_negate (L : ℚ) :
    (get_square_tab_points L false).length = (get_square_tab_points L true).length ∧
    get_square_tab_points L false
      = (get_square_tab_points L true).map (fun p => (p.1, -p.2)) := by
  constructor
  · simp [get_square_tab_points]
  · simp [get_square_tab_points]

/-- C5 counterexample: at length 10 the profile generated by
get_square_tab_points starts at (3.5, 0) and ends at (6.5, 0), not at
(0, 0) and (10, 0) as the claim states. -/
theorem tab_profile_not_from_origin :
    (get_square_tab_points 10 true).head? = some (7 / 2, 0) ∧
    ((7 / 2 : ℚ), (0 : ℚ)) ≠ ((0 : ℚ), (0 : ℚ)) ∧
    (get_square_tab_points 10 true).getLast? = some (13 / 2, 0) ∧
    ((13 / 2 : ℚ), (0 : ℚ)) ≠ ((10 : ℚ), (0 : ℚ)) := by
  refine ⟨?_, ?_, ?_, ?_⟩ <;> norm_num [get_square_tab_points]

/-- C5 amended: for every edge length L and both is_tab values, the profile
starts at (0.35 L, 0) and ends at (0.65 L, 0), both with zero perpendicular
offset; the edge endpoints (0,0) and (L,0) themselves are not part of the
profile but are the cell corners that create_piece_mask appends around it
when building the closed polygon. -/
theorem tab_profile_endpoints (L : ℚ) (b : Bool) :
    (get_square_tab_points L b).head? = some (L * (7 / 20), 0) ∧
    (get_square_tab_points L b).getLast? = some (L * (13 / 20), 0) := by
  have hx2 : (L - L * (3 / 10)) / 2 + L * (3 / 10) = L * (13 / 20) := by ring
  have hx1 : (L - L * (3 / 10)) / 2 = L * (7 / 20) := by ring
  simp only [get_square_tab_points]
  rw [hx2, hx1]
  exact ⟨rfl, rfl⟩

/-- Embedding of the per-piece side derivation in process_image
(src/app.py line 235): 0 if r == 0 else the negation of the horizontal
entry above. -/
def top_edge (h_edges : ℕ → ℕ → ℤ) (r c : ℕ) : ℤ :=
  if r = 0 then 0 else -h_edges (r - 1) c

/-- Embedding of the per-piece side derivation in process_image
(src/app.py line 236): 0 if c == cols - 1 else the vertical entry. -/
def right_edge (v_edges : ℕ → ℕ → ℤ) (cols : ℕ) (r c : ℕ) : ℤ :=
  if c = cols - 1 then 0 else v_edges r c

/-- Embedding of the per-piece side derivation in process_image
(src/app.py line 237): 0 if r == rows - 1 else the horizontal entry. -/
def bottom_edge (h_edges : ℕ → ℕ → ℤ) (rows : ℕ) (r c : ℕ) : ℤ :=
  if r = rows - 1 then 0 else h_edges r c

/-- Embedding of the per-piece side derivation in process_image
(src/app.py line 238): 0 if c == 0 else the negation of the vertical entry
to the left. -/
def left_edge (v_edges : ℕ → ℕ → ℤ) (r c : ℕ) : ℤ :=
  if c = 0 then 0 else -v_edges r (c - 1)

/-- C1: with every edge-pattern entry drawn from the tab/hole codes 1 and
-1 (src/app.py lines 224-225), every piece side on the image perimeter is
classified flat (0), and across every internal vertical or horizontal
boundary the two facing side classifications are exactly one tab (1) and
one hole (-1) - never equal and never both flat. -/
theorem edge_assignment_invariant (rows cols : ℕ) (v_edges h_edges : ℕ → ℕ → ℤ)
    (hv : ∀ r c : ℕ, r < rows → c < cols - 1 → v_edges r c = 1 ∨ v_edges r c = -1)
    (hh : ∀ r c : ℕ, r < rows - 1 → c < cols → h_edges r c = 1 ∨ h_edges r c = -1) :
    (∀ c : ℕ, top_edge h_edges 0 c = 0) ∧
    (∀ c : ℕ, bottom_edge h_edges rows (rows - 1) c = 0) ∧
    (∀ r : ℕ, left_edge v_edges r 0 = 0) ∧
    (∀ r : ℕ, right_edge v_edges cols r (cols - 1) = 0) ∧
    (∀ r c : ℕ, r < rows → c < cols - 1 →
      (right_edge v_edges cols r c = 1 ∧ left_edge v_edges r (c + 1) = -1) ∨
      (right_edge v_edges cols r c = -1 ∧ left_edge v_edges r (c + 1) = 1)) ∧
    (∀ r c : ℕ, r < rows - 1 → c < cols →
      (bottom_edge h_edges rows r c = 1 ∧ top_edge h_edges (r + 1) c = -1) ∨
      (bottom_edge h_edges rows r c = -1 ∧ top_edge h_edges (r + 1) c = 1)) := by
  refine ⟨?_, ?_, ?_, ?_, ?_, ?_⟩
  · intro c
    simp [top_edge]
  · intro c
    simp [bottom_edge]
  · intro r
    simp [left_edge]
  · intro r
    simp [right_edge]
  · intro r c hr hc
    have hcne : c ≠ cols - 1 := Nat.ne_of_lt hc
    have h1 : right_edge v_edges cols r c = v_edges r c := by
      simp [right_edge, hcne]
    have h2 : left_edge v_edges r (c + 1) = -v_edges r c := by
      simp [left_edge]
    rcases hv r c hr hc with h | h
    · exact Or.inl ⟨by rw [h1, h], by rw [h2, h]⟩
    · exact Or.inr ⟨by rw [h1, h], by rw [h2, h]; norm_num⟩
  · intro r c hr hc
    have hrne : r ≠ rows - 1 := Nat.ne_of_lt hr
    have h1 : bottom_edge h_edges rows r c = h_edges r c := by
      simp [bottom_edge, hrne]
    have h2 : top_edge h_edges (r + 1) c = -h_edges r c := by
      simp [top_edge]
    rcases hh r c hr hc with h | h
    · exact Or.inl ⟨by rw [h1, h], by rw [h2, h]⟩
    · exact Or.inr ⟨by rw [h1, h], by rw [h2, h]; norm_num⟩

/-- Witness for C1: a 2 by 2 grid with all pattern entries set to 1. -/
theorem edge_assignment_invariant_witness :
    (right_edge (fun _ _ => (1 : ℤ)) 2 0 0 = 1 ∧ left_edge (fun _ _ => (1 : ℤ)) 0 1 = -1) ∨
    (right_edge (fun _ _ => (1 : ℤ)) 2 0 0 = -1 ∧ left_edge (fun _ _ => (1 : ℤ)) 0 1 = 1) :=
  (edge_assignment_invariant 2 2 (fun _ _ => 1) (fun _ _ => 1)
    (fun _ _ _ _ => Or.inl rfl) (fun _ _ _ _ => Or.inl rfl)).2.2.2.2.1 0 0
    (by norm_num) (by norm_num)

/-- Embedding of the top-edge walk of create_piece_mask
(src/app.py lines 76-84): for a flat edge only the far corner tr; otherwise
the profile points placed relative to tl (y subtracted because up is
negative) followed by tr. -/
def top_edge_path (piece_w padding : ℚ) (shape : ℤ) : List (ℚ × ℚ) :=
  if shape = 0 then [(padding + piece_w, padding)]
  else (get_square_tab_points piece_w (shape == 1)).map
      (fun p => (padding + p.1, padding - p.2)) ++ [(padding + piece_w, padding)]

/-- Embedding of the right-edge walk of create_piece_mask
(src/app.py lines 86-94): profile x becomes vertical travel and profile y
the outward horizontal offset, followed by the far corner br. -/
def right_edge_path (piece_w piece_h padding : ℚ) (shape : ℤ) : List (ℚ × ℚ) :=
  if shape = 0 then [(padding + piece_w, padding + piece_h)]
  else (get_square_tab_points piece_h (shape == 1)).map
      (fun p => ((padding + piece_w) + p.2, padding + p.1)) ++
    [(padding + piece_w, padding + piece_h)]

/-- Embedding of the bottom-edge walk of create_piece_mask
(src/app.py lines 96-105): the edge runs right to left, so x is inverted,
followed by the far corner bl. -/
def bottom_edge_path (piece_w piece_h padding : ℚ) (shape : ℤ) : List (ℚ × ℚ) :=
  if shape = 0 then [(padding, padding + piece_h)]
  else (get_square_tab_points piece_w (shape == 1)).map
      (fun p => (padding + (piece_w - p.1), (padding + piece_h) + p.2)) ++
    [(padding, padding + piece_h)]

/-- Embedding of the left-edge walk of create_piece_mask
(src/app.py lines 107-112): the edge runs bottom to top; nothing is
appended for a flat left edge (the polygon closes back to tl itself). -/
def left_edge_path (piece_h padding : ℚ) (shape : ℤ) : List (ℚ × ℚ) :=
  if shape = 0 then []
  else (get_square_tab_points piece_h (shape == 1)).map
      (fun p => (padding - p.2, padding + (piece_h - p.1)))

/-- Result of create_piece_mask: the allocated canvas dimensions, the
polygon point list that is filled at opacity 255, and the padding used. -/
structure PieceMask where
  mask_w : ℤ
  mask_h : ℤ
  polygon : List (ℚ × ℚ)
  padding : ℚ

/-- Embedding of create_piece_mask (src/app.py lines 55-116):
padding = max(piece_w, piece_h) * 0.3; canvas int(piece_w + padding*2) by
int(piece_h + padding*2); polygon walked clockwise from tl through the four
edge paths; edge_shapes = (top, right, bottom, left) with 0 flat, 1 tab,
-1 hole. -/
def create_piece_mask (piece_w piece_h : ℚ) (edge_shapes : ℤ × ℤ × ℤ × ℤ) :
    PieceMask :=
  let padding : ℚ := max piece_w piece_h * (3 / 10)
  ⟨int_trunc (piece_w + padding * 2),
   int_trunc (piece_h + padding * 2),
   (padding, padding) ::
     (top_edge_path piece_w padding edge_shapes.1 ++
      right_edge_path piece_w piece_h padding edge_shapes.2.1 ++
      bottom_edge_path piece_w piece_h padding edge_shapes.2.2.1 ++
      left_edge_path piece_h padding edge_shapes.2.2.2),
   padding⟩

/-- C6 counterexample: at cell dimensions 1 by 1 the padding is 0.3 and the
claimed canvas width cw + 2p = 1.6, but the allocated width is
int(1.6) = 1, so the canvas size is not (cw + 2p) by (ch + 2p). -/
theorem mask_size_truncated :
    (create_piece_mask 1 1 (0, 0, 0, 0)).padding = 3 / 10 ∧
    (create_piece_mask 1 1 (0, 0, 0, 0)).mask_w = 1 ∧
    ((create_piece_mask 1 1 (0, 0, 0, 0)).mask_w : ℚ) ≠
      1 + (create_piece_mask 1 1 (0, 0, 0, 0)).padding * 2 := by
  have hfl : ⌊(1 + 3 / 10 * 2 : ℚ)⌋ = 1 := by
    rw [Int.floor_eq_iff]
    norm_num
  refine ⟨?_, ?_, ?_⟩ <;>
    norm_num [create_piece_mask, int_trunc, hfl]

/-- C6 amended: for all cell dimensions the Piece Mask Builder uses padding
p = 0.3 * max(cw, ch) and allocates its canvas at the integer truncation
⌊cw + 2p⌋ by ⌊ch + 2p⌋ (whole pixels), returning the mask together with
the padding amount used. -/
theorem mask_padding_and_size (cw ch : ℚ) (hcw : 0 ≤ cw) (hch : 0 ≤ ch)
    (e : ℤ × ℤ × ℤ × ℤ) :
    (create_piece_mask cw ch e).padding = (3 / 10) * max cw ch ∧
    (create_piece_mask cw ch e).mask_w =
      ⌊cw + 2 * (create_piece_mask cw ch e).padding⌋ ∧
    (create_piece_mask cw ch e).mask_h =
      ⌊ch + 2 * (create_piece_mask cw ch e).padding⌋ := by
  have hpad : 0 ≤ max cw ch * (3 / 10) :=
    mul_nonneg (le_trans hcw (le_max_left cw ch)) (by norm_num)
  have h1 : 0 ≤ cw + max cw ch * (3 / 10) * 2 := by
    have := mul_nonneg hpad (by norm_num : (0 : ℚ) ≤ 2)
    linarith
  have h2 : 0 ≤ ch + max cw ch * (3 / 10) * 2 := by
    have := mul_nonneg hpad (by norm_num : (0 : ℚ) ≤ 2)
    linarith
  refine ⟨?_, ?_, ?_⟩
  · simp only [create_piece_mask]
    ring
  · simp only [create_piece_mask, int_trunc, if_pos h1]
    congr 1
    ring
  · simp only [create_piece_mask, int_trunc, if_pos h2]
    congr 1
    ring

/-- Witness for the amended C6 at cell dimensions 1 by 1 with all flat
edges. -/
theorem mask_padding_and_size_witness :
    (create_piece_mask 1 1 (0, 0, 0, 0)).padding = (3 / 10) * max 1 1 ∧
    (create_piece_mask 1 1 (0, 0, 0, 0)).mask_w =
      ⌊(1 : ℚ) + 2 * (create_piece_mask 1 1 (0, 0, 0, 0)).padding⌋ ∧
    (create_piece_mask 1 1 (0, 0, 0, 0)).mask_h =
      ⌊(1 : ℚ) + 2 * (create_piece_mask 1 1 (0, 0, 0, 0)).padding⌋ :=
  mask_padding_and_size 1 1 (by norm_num) (by norm_num) (0, 0, 0, 0)

/-- Embedding of the vertical cut line drawn by draw_cut_lines_on_full_image
(src/app.py lines 165-176) for the internal boundary at column c in row r:
start point at the boundary top, the profile points with x and y swapped
into the vertical direction, then the boundary bottom. -/
def guide_vertical_polyline (margin piece_w piece_h : ℚ) (r c : ℕ)
    (shape : ℤ) : List (ℚ × ℚ) :=
  let x_base : ℚ := margin + (c : ℚ) * piece_w
  let y_start : ℚ := margin + (r : ℚ) * piece_h
  let y_end : ℚ := margin + ((r : ℚ) + 1) * piece_h
  (x_base, y_start) ::
    ((get_square_tab_points piece_h (shape == 1)).map
        (fun p => (x_base + p.2, y_start + p.1)) ++ [(x_base, y_end)])

/-- Embedding of the horizontal cut line drawn by
draw_cut_lines_on_full_image (src/app.py lines 179-190) for the internal
boundary at row r in column c. -/
def guide_horizontal_polyline (margin piece_w piece_h : ℚ) (r c : ℕ)
    (shape : ℤ) : List (ℚ × ℚ) :=
  let y_base : ℚ := margin + (r : ℚ) * piece_h
  let x_start : ℚ := margin + (c : ℚ) * piece_w
  let x_end : ℚ := margin + ((c : ℚ) + 1) * piece_w
  (x_start, y_base) ::
    ((get_square_tab_points piece_w (shape == 1)).map
        (fun p => (x_start + p.1, y_base + p.2)) ++ [(x_end, y_base)])

/-- C2: for every internal boundary with pattern entry s (1 or -1) the
polyline the guide draws consists of the same sample points, modulo one
constant translation, as the matching edge portion of the adjacent piece
mask polygon: for a vertical boundary that is the right-edge path of the
piece on its left (classified s), walked from the corner tr; for a
horizontal boundary it is the top-edge path of the piece below (classified
-s), walked from the corner tl. The statement holds for every padding,
in particular the one create_piece_mask uses. -/
theorem guide_cut_curves_congruent (margin piece_w piece_h padding : ℚ)
    (r c : ℕ) (s : ℤ) (hs : s = 1 ∨ s = -1) :
    (∃ d : ℚ × ℚ,
      guide_vertical_polyline margin piece_w piece_h r c s
        = (((padding + piece_w, padding) ::
            right_edge_path piece_w piece_h padding s).map
            (fun p => (p.1 + d.1, p.2 + d.2)))) ∧
    (∃ d : ℚ × ℚ,
      guide_horizontal_polyline margin piece_w piece_h r c s
        = (((padding, padding) :: top_edge_path piece_w padding (-s)).map
            (fun p => (p.1 + d.1, p.2 + d.2)))) := by
  rcases hs with rfl | rfl
  · constructor
    · refine ⟨(margin + (c : ℚ) * piece_w - (padding + piece_w),
              margin + (r : ℚ) * piece_h - padding), ?_⟩
      simp [guide_vertical_polyline, right_edge_path, get_square_tab_points,
        List.cons.injEq, Prod.mk.injEq]
      repeat' apply And.intro
      all_goals first | rfl | ring
    · refine ⟨(margin + (c : ℚ) * piece_w - padding,
              margin + (r : ℚ) * piece_h - padding), ?_⟩
      simp [guide_horizontal_polyline, top_edge_path, get_square_tab_points,
        List.cons.injEq, Prod.mk.injEq]
      repeat' apply And.intro
      all_goals first | rfl | ring
  · constructor
    · refine ⟨(margin + (c : ℚ) * piece_w - (padding + piece_w),
              margin + (r : ℚ) * piece_h - padding), ?_⟩
      simp [guide_vertical_polyline, right_edge_path, get_square_tab_points,
        List.cons.injEq, Prod.mk.injEq]
      repeat' apply And.intro
      all_goals first | rfl | ring
    · refine ⟨(margin + (c : ℚ) * piece_w - padding,
              margin + (r : ℚ) * piece_h - padding), ?_⟩
      simp [guide_horizontal_polyline, top_edge_path, get_square_tab_points,
        List.cons.injEq, Prod.mk.injEq]
      repeat' apply And.intro
      all_goals first | rfl | ring

/-- Witness for C2: the boundary right of cell (0,0) with margin 30, cell
100 by 80, padding 24 and pattern entry 1. -/
theorem guide_cut_curves_congruent_witness :
    (∃ d : ℚ × ℚ,
      guide_vertical_polyline 30 100 80 0 1 1
        = (((24 + 100, 24) :: right_edge_path 100 80 24 1).map
            (fun p => (p.1 + d.1, p.2 + d.2)))) ∧
    (∃ d : ℚ × ℚ,
      guide_horizontal_polyline 30 100 80 0 1 1
        = (((24, 24) :: top_edge_path 100 24 (-1)).map
            (fun p => (p.1 + d.1, p.2 + d.2)))) :=
  guide_cut_curves_congruent 30 100 80 24 0 1 1 (Or.inl rfl)

/-- One RGBA pixel, channel values as stored by the image buffers. -/
structure RGBA where
  r : ℕ
  g : ℕ
  b : ℕ
  a : ℕ

/-- Embedding of the per-piece compositing step of process_image
(src/app.py lines 246-256).  A fully transparent canvas of the mask size
is created; the crop rectangle (crop_x, crop_y) to
(crop_x + mask_w, crop_y + mask_h) is clipped against the source bounds;
if the clipped chunk is nonempty it is pasted at the matching relative
offset, so canvas pixel (x, y) inside the pasted region shows source pixel
(crop_x + x, crop_y + y); finally putalpha replaces the whole alpha
channel with the mask.  The result maps canvas coordinates to pixels. -/
def composite_piece (img_data : ℤ → ℤ → RGBA) (img_w img_h : ℤ)
    (crop_x crop_y : ℤ) (mask : ℤ → ℤ → ℕ) (mask_w mask_h : ℤ) :
    ℤ → ℤ → RGBA :=
  let src_x := max 0 crop_x
  let src_y := max 0 crop_y
  let src_w := min img_w (crop_x + mask_w) - src_x
  let src_h := min img_h (crop_y + mask_h) - src_y
  fun x y =>
    let pasted : RGBA :=
      if 0 < src_w ∧ 0 < src_h ∧
         src_x - crop_x ≤ x ∧ x < src_x - crop_x + src_w ∧
         src_y - crop_y ≤ y ∧ y < src_y - crop_y + src_h then
        img_data (crop_x + x) (crop_y + y)
      else ⟨0, 0, 0, 0⟩
    ⟨pasted.r, pasted.g, pasted.b, mask x y⟩

/-- C3: for a piece whose crop rectangle lies fully inside the source
bounds, the composited RGBA image has alpha exactly equal to the mask at
every pixel; in particular alpha is exactly 0 wherever the mask is 0
(outside the filled polygon region) and never exceeds the mask value. -/
theorem composite_alpha_eq_mask (img_data : ℤ → ℤ → RGBA)
    (img_w img_h crop_x crop_y : ℤ) (mask : ℤ → ℤ → ℕ) (mask_w mask_h : ℤ)
    (x y : ℤ) (_hx : 0 ≤ crop_x) (_hy : 0 ≤ crop_y)
    (_hw : crop_x + mask_w ≤ img_w) (_hh : crop_y + mask_h ≤ img_h) :
    (composite_piece img_data img_w img_h crop_x crop_y mask mask_w mask_h
        x y).a = mask x y ∧
    (mask x y = 0 →
      (composite_piece img_data img_w img_h crop_x crop_y mask mask_w mask_h
          x y).a = 0) ∧
    (composite_piece img_data img_w img_h crop_x crop_y mask mask_w mask_h
        x y).a ≤ mask x y :=
  ⟨rfl, fun h => h ▸ rfl, le_refl _⟩

/-- Witness for C3: a 5 by 5 mask cropped at the origin of a 10 by 10
source, inspected at pixel (2, 3) where the mask value is 255. -/
theorem composite_alpha_eq_mask_witness :
    (composite_piece (fun _ _ => ⟨7, 7, 7, 255⟩) 10 10 0 0
        (fun _ _ => 255) 5 5 2 3).a = 255 ∧
    ((255 : ℕ) = 0 →
      (composite_piece (fun _ _ => ⟨7, 7, 7, 255⟩) 10 10 0 0
          (fun _ _ => 255) 5 5 2 3).a = 0) ∧
    (composite_piece (fun _ _ => ⟨7, 7, 7, 255⟩) 10 10 0 0
        (fun _ _ => 255) 5 5 2 3).a ≤ 255 :=
  composite_alpha_eq_mask (fun _ _ => ⟨7, 7, 7, 255⟩) 10 10 0 0
    (fun _ _ => 255) 5 5 2 3 (by norm_num) (by norm_num) (by norm_num)
    (by norm_num)
